import Mathlib

/-!
Verification of the stream-status polling engine of `discord_bot`
(`discord_bot/cogs/stream/setup.py`).

The embedding models one polling iteration (`poll_streams`'s `while True`
body), the per-stream reconciliation, the notification lifecycle helpers
`on_stream_online` / `on_stream_offline`, and the subscription lifecycle
operations `_add_stream`, `_remove_stream` and `on_guild_channel_delete`.

Time is modelled by natural numbers (seconds).  The external collaborators
(Twitch status provider, Discord dispatcher) are modelled as oracles passed
to the polling engine; the persistent store is modelled as lists of rows
with filter-by-field queries.  The `db` module of the repository is not part
of the reviewed source, so the pieces of it the engine relies on (the
`Stream` model defaults and its `offline_duration` property, the CRUD
queries of `DBDriver`) are modelled from the specification and marked as
such in their doc comments.
-/

namespace DiscordBot

/-- A notification handle: a reference to a previously posted Discord
message, identified by its message id.  The embeds and timestamps carried by
the real message object only feed logging and rendering, which are external
effects. -/
structure Notification where
  id : Nat
deriving DecidableEq, Repr

/-- Result of a dispatcher `edit` call on a notification handle:
success, the `discord.errors.NotFound` signal, or any other failure. -/
inductive EditResult where
  | ok
  | notFound
  | err
deriving DecidableEq, Repr

/-- Result of a dispatcher `post` (`bot.send`) call: a fresh notification
handle, or a failure. -/
inductive PostResult where
  | ok (n : Notification)
  | err
deriving DecidableEq, Repr

/-- The external dispatcher, as oracles: `post sid (channel, everyone)`
posts a notification for stream `sid`, `edit nid` edits message `nid`. -/
structure Oracles where
  post : Nat → Nat × Bool → PostResult
  edit : Nat → EditResult

/-- A registry entry of `streams_by_id`: the in-memory `Stream` model
instance, holding the persisted identity (`id`, `name`) together with the
transient liveness state (`is_online`, `last_offline_date`,
`notifications`). -/
structure Stream where
  id : Nat
  name : String
  is_online : Bool
  last_offline_date : Option Nat
  notifications : List Notification
deriving DecidableEq, Repr

/-- A persisted `Stream` row (only `id` and `name` are persisted). -/
structure StreamRow where
  id : Nat
  name : String
deriving DecidableEq, Repr

/-- A persisted `Channel` row (a Discord destination channel). -/
structure Channel where
  id : Nat
  name : String
  guild_id : Nat
  guild_name : String
deriving DecidableEq, Repr

/-- A persisted `ChannelStream` row: one subscription relating a Discord
channel to a Twitch stream, with the `everyone` broad-audience flag. -/
structure ChannelStream where
  channel_id : Nat
  stream_id : Nat
  everyone : Bool
deriving DecidableEq, Repr

/-- Modelled from the spec: the Subscription Store (the repository's `db`
module, which is not part of the reviewed source) is a durable mapping of
stream/destination/subscription records offering create/read/delete with
filter-by-field queries. -/
structure Store where
  streams : List StreamRow
  channels : List Channel
  channel_streams : List ChannelStream
deriving DecidableEq, Repr

/-- An optional equality filter on a queried field. -/
def opt_match (o : Option Nat) (v : Nat) : Bool :=
  match o with
  | none => true
  | some x => decide (x = v)

/-- An optional equality filter on a queried string field. -/
def opt_match_str (o : Option String) (v : String) : Bool :=
  match o with
  | none => true
  | some x => decide (x = v)

/-- Modelled from the spec: `DBDriver.get_channel_stream`, filtering the
subscription rows by the given `channel_id` and/or `stream_id`. -/
def get_channel_stream (st : Store) (cid sid : Option Nat) : List ChannelStream :=
  st.channel_streams.filter fun cs =>
    opt_match cid cs.channel_id && opt_match sid cs.stream_id

/-- Modelled from the spec: `DBDriver.get_stream`, filtering the stream rows
by the given `id` and/or `name`. -/
def get_stream_q (st : Store) (fid : Option Nat) (fname : Option String) : List StreamRow :=
  st.streams.filter fun r => opt_match fid r.id && opt_match_str fname r.name

/-- Modelled from the spec: `DBDriver.get_channel`, filtering the channel
rows by the given `id`. -/
def get_channel_q (st : Store) (fid : Option Nat) : List Channel :=
  st.channels.filter fun c => opt_match fid c.id

/-- Lookup in the in-memory registry dictionary `streams_by_id`. -/
def reg_lookup : List (Nat × Stream) → Nat → Option Stream
  | [], _ => none
  | (k, v) :: rest, j => if k = j then some v else reg_lookup rest j

/-- Dictionary assignment `streams_by_id[stream_id] = stream`: replaces the
value of an existing key, otherwise appends a new entry (Python dicts keep
insertion order). -/
def reg_insert : List (Nat × Stream) → Nat → Stream → List (Nat × Stream)
  | [], k, v => [(k, v)]
  | (k', v') :: rest, k, v =>
    if k' = k then (k, v) :: rest else (k', v') :: reg_insert rest k v

/-- In-place mutation of the entry of an existing key (the polling loop
mutates the `Stream` object held by the dictionary; the key set never
changes). -/
def reg_set : List (Nat × Stream) → Nat → Stream → List (Nat × Stream)
  | [], _, _ => []
  | (k', v') :: rest, k, v =>
    if k' = k then (k, v) :: rest else (k', v') :: reg_set rest k v

/-- `del streams_by_id[stream_id]`: removes the entry of the key. -/
def reg_erase : List (Nat × Stream) → Nat → List (Nat × Stream)
  | [], _ => []
  | (k', v') :: rest, k =>
    if k' = k then rest else (k', v') :: reg_erase rest k

/-- The full interpreter state shared by the polling loop and the command
handlers: the in-memory registry and the persistent store. -/
structure World where
  streams_by_id : List (Nat × Stream)
  store : Store
deriving DecidableEq, Repr

/-- Python's `str.lower` for the ASCII stream names in play. -/
def py_lower (s : String) : String := String.mk (s.data.map Char.toLower)

/-- Modelled from the spec: a freshly created `Stream` model instance
(`db.create_stream`) enters the registry with online flag false, no
last-offline timestamp and no outstanding notifications. -/
def new_stream (sid : Nat) (nm : String) : Stream :=
  { id := sid, name := nm, is_online := false, last_offline_date := none,
    notifications := [] }

/-- Modelled from the spec: the `offline_duration` property of the `Stream`
model (`db` module, not part of the reviewed source).  Per the spec the
last-offline timestamp "is stamped now" when it is null, and the property
yields the elapsed time since that stamp.  Returns the pair
(elapsed duration, timestamp after the access). -/
def offline_duration (now : Nat) (d : Option Nat) : Nat × Nat :=
  match d with
  | none => (0, now)
  | some t => (now - t, t)

/-- Removal of the first list element carrying the given message id
(`stream.notifications.remove(notification)`; Discord messages compare by
id). -/
def remove_notification : List Notification → Nat → List Notification
  | [], _ => []
  | x :: xs, a => if x.id = a then xs else x :: remove_notification xs a

/-- The body of `on_stream_offline`: Python's
`for notification in stream.notifications:` iterates by an index over the
list object while the loop body removes successfully edited elements from
that same list.  One step reads position `i`; a successful edit removes the
element and records its id, a `NotFound` leaves the list untouched, and any
other dispatcher failure propagates out of the loop immediately.  Returns
(final list, edited message ids, failure flag). -/
def offline_loop (edit : Nat → EditResult) (i : Nat) (l : List Notification)
    (ed : List Nat) : List Notification × List Nat × Bool :=
  if h : i < l.length then
    match edit (l[i].id) with
    | .ok => offline_loop edit (i + 1) (remove_notification l (l[i].id)) (ed ++ [l[i].id])
    | .notFound => offline_loop edit (i + 1) l ed
    | .err => (l, ed, true)
  else
    (l, ed, false)
termination_by l.length - i
decreasing_by
  · have key : ∀ (m : List Notification) (a : Nat), (∃ x ∈ m, x.id = a) →
        (remove_notification m a).length + 1 = m.length := by
      intro m
      induction m with
      | nil => intro a ha; obtain ⟨x, hx, _⟩ := ha; cases hx
      | cons y ys ih =>
        intro a ha
        by_cases hy : y.id = a
        · simp [remove_notification, hy]
        · obtain ⟨x, hx, hxa⟩ := ha
          rcases List.mem_cons.mp hx with h1 | h1
          · exact absurd (h1 ▸ hxa) hy
          · have := ih a ⟨x, h1, hxa⟩
            simp only [remove_notification, hy, if_false, List.length_cons]
            omega
    have hmem : ∃ x ∈ l, x.id = l[i].id := ⟨l[i], List.getElem_mem h, rfl⟩
    have := key l (l[i].id) hmem
    omega
  · omega

/-- `on_stream_offline(stream, notified_channels)`: edits the outstanding
notifications of a stream going offline, starting the iteration at index 0
with no edits recorded yet. -/
def on_stream_offline (edit : Nat → EditResult) (notifs : List Notification) :
    List Notification × List Nat × Bool :=
  offline_loop edit 0 notifs []

/-- `on_stream_online(stream, notified_channels, status)`: posts one
notification per subscribed (channel, everyone) pair, appending each
returned handle to the stream's outstanding list; a dispatcher failure
propagates immediately, keeping the handles appended so far.  Returns
(notification list, failure flag). -/
def online_loop (post : Nat × Bool → PostResult) :
    List (Nat × Bool) → List Notification → List Notification × Bool
  | [], acc => (acc, false)
  | c :: rest, acc =>
    match post c with
    | .ok n => online_loop post rest (acc ++ [n])
    | .err => (acc, true)

/-- Lookup of a stream id in the provider response (`stream.id in status`,
`status[stream.id]['channel']['name']`). -/
def status_lookup : List (Nat × String) → Nat → Option String
  | [], _ => none
  | (k, v) :: rest, j => if k = j then some v else status_lookup rest j

/-- A failure escaping one polling iteration: the unguarded registry lookup
(`KeyError`) or an uncaught dispatcher failure. -/
inductive Exn where
  | keyError (sid : Nat)
  | dispatchErr
deriving DecidableEq, Repr

/-- Result of reconciling one stream: the mutated registry object, the
pending persisted name update if any, and whether a failure escaped. -/
structure ProcOut where
  stream : Stream
  name_update : Option (Nat × String)
  errored : Bool
deriving DecidableEq, Repr

/-- The per-stream body of the polling iteration (`poll_streams`, lines
120-142): if the stream id is present in the provider response, clear the
last-offline timestamp, refresh the persisted name when it changed, and on
an offline-to-online edge post the notifications and set the online flag;
if absent, the guard `stream.is_online and stream.offline_duration >
CONF.MIN_OFFLINE_DURATION` short-circuits on the flag and otherwise accesses
`offline_duration` (stamping the timestamp when null), firing the offline
transition only above the threshold. -/
def reconcile_stream (conf_min now : Nat) (o : Oracles)
    (status : List (Nat × String)) (nc : List (Nat × Bool)) (s : Stream) : ProcOut :=
  match status_lookup status s.id with
  | some api_name =>
    let s1 : Stream := { s with last_offline_date := none }
    let su : Stream × Option (Nat × String) :=
      if s1.name = api_name then (s1, none)
      else ({ s1 with name := api_name }, some (s1.id, api_name))
    if su.1.is_online then
      { stream := su.1, name_update := su.2, errored := false }
    else
      let r := online_loop (o.post su.1.id) nc su.1.notifications
      if r.2 then
        { stream := { su.1 with notifications := r.1 }, name_update := su.2,
          errored := true }
      else
        { stream := { su.1 with notifications := r.1, is_online := true },
          name_update := su.2, errored := false }
  | none =>
    if s.is_online then
      let p := offline_duration now s.last_offline_date
      let s1 : Stream := { s with last_offline_date := some p.2 }
      if p.1 > conf_min then
        let r := on_stream_offline o.edit s1.notifications
        if r.2.2 then
          { stream := { s1 with notifications := r.1 }, name_update := none,
            errored := true }
        else
          { stream := { s1 with notifications := r.1, is_online := false },
            name_update := none, errored := false }
      else
        { stream := s1, name_update := none, errored := false }
    else
      { stream := s, name_update := none, errored := false }

/-- One `defaultdict(list)` insertion while building the fan-out table:
append the (channel, everyone) pair to the group of the row's stream id,
creating the group at the end on first sight of the key. -/
def fanout_add : List (Nat × List (Nat × Bool)) → ChannelStream →
    List (Nat × List (Nat × Bool))
  | [], cs => [(cs.stream_id, [(cs.channel_id, cs.everyone)])]
  | (k, v) :: rest, cs =>
    if k = cs.stream_id then (k, v ++ [(cs.channel_id, cs.everyone)]) :: rest
    else (k, v) :: fanout_add rest cs

/-- The fan-out table `channels_by_stream_id`, rebuilt from the subscription
rows at the start of every polling iteration. -/
def channels_by_stream_id (rows : List ChannelStream) :
    List (Nat × List (Nat × Bool)) :=
  rows.foldl fanout_add []

/-- Application of the pending `stream.update(name=...).apply()` to the
store. -/
def apply_name_update (st : Store) : Option (Nat × String) → Store
  | none => st
  | some (sid, nm) =>
    { st with streams := st.streams.map fun r =>
        if r.id = sid then { r with name := nm } else r }

/-- The reconciliation loop of one polling iteration: iterate the fan-out
table in order; each entry indexes the registry with
`self.streams_by_id[stream_id]` with no guard (`KeyError` escapes), then
reconciles the stream; a failure escaping one stream's reconciliation
aborts the remaining entries of the iteration. -/
def poll_tick_go (conf_min now : Nat) (o : Oracles) (status : List (Nat × String)) :
    List (Nat × List (Nat × Bool)) → World → World × Option Exn
  | [], w => (w, none)
  | (sid, nc) :: rest, w =>
    match reg_lookup w.streams_by_id sid with
    | none => (w, some (Exn.keyError sid))
    | some s =>
      let r := reconcile_stream conf_min now o status nc s
      let w1 : World := { streams_by_id := reg_set w.streams_by_id sid r.stream,
                          store := apply_name_update w.store r.name_update }
      if r.errored then (w1, some Exn.dispatchErr)
      else poll_tick_go conf_min now o status rest w1

/-- One iteration of `poll_streams`: build the fan-out table, query the
provider, and reconcile.  A `None` answer skips the whole iteration; an
answer (empty or not) drives the per-stream reconciliation. -/
def poll_tick (conf_min now : Nat) (o : Oracles) (w : World)
    (status : Option (List (Nat × String))) : World × Option Exn :=
  match status with
  | none => (w, none)
  | some st => poll_tick_go conf_min now o st
      (channels_by_stream_id w.store.channel_streams) w

/-- The `while True` polling loop over a schedule of (time, provider
response) ticks: an uncaught failure in one iteration escapes the loop and
stops the polling. -/
def poll_streams (conf_min : Nat) (o : Oracles) :
    List (Nat × Option (List (Nat × String))) → World → World × Option Exn
  | [], w => (w, none)
  | (now, status) :: rest, w =>
    match poll_tick conf_min now o w status with
    | (w1, some e) => (w1, some e)
    | (w1, none) => poll_streams conf_min o rest w1

/-- `_add_stream(channel, stream_name, everyone)`: resolve the lowered name
to an id, and unless the (channel, stream) subscription already exists,
create the missing stream row (registering the stream in `streams_by_id`),
the missing channel row, and the subscription row.  `none` models the
`KeyError` of a failed name resolution; the boolean is the return value. -/
def _add_stream (ids : String → Option Nat) (w : World) (channel : Channel)
    (stream_name : String) (everyone : Bool) : Option (World × Bool) :=
  let nm := py_lower stream_name
  match ids nm with
  | none => none
  | some sid =>
    if (get_channel_stream w.store (some channel.id) (some sid)).isEmpty then
      let w1 : World :=
        if (get_stream_q w.store none (some nm)).isEmpty then
          { streams_by_id := reg_insert w.streams_by_id sid (new_stream sid nm),
            store := { w.store with streams := w.store.streams ++ [⟨sid, nm⟩] } }
        else w
      let w2 : World :=
        if (get_channel_q w1.store (some channel.id)).isEmpty then
          { w1 with store := { w1.store with
              channels := w1.store.channels ++ [channel] } }
        else w1
      some ({ w2 with store := { w2.store with channel_streams :=
                w2.store.channel_streams ++ [⟨channel.id, sid, everyone⟩] } }, true)
    else
      some (w, false)

/-- `_remove_stream(channel, stream_name)`: resolve the name (not lowered in
this method), and if the subscription exists delete its row, then the
channel row when no subscription references the channel anymore, then the
stream row (and its registry entry) when no subscription references the
stream anymore.  `none` models the exceptions of a failed resolution, of the
`[0]` indexing on empty query results, and of `del streams_by_id[...]` on a
missing key.  The boolean is the (truthy) return value. -/
def _remove_stream (ids : String → Option Nat) (w : World) (channel : Channel)
    (stream_name : String) : Option (World × Bool) :=
  match ids stream_name with
  | none => none
  | some sid =>
    match get_channel_stream w.store (some channel.id) (some sid) with
    | [] => some (w, false)
    | cs :: _ =>
      match get_channel_q w.store (some cs.channel_id),
            get_stream_q w.store (some cs.stream_id) none with
      | ch_db :: _, st_db :: _ =>
        let store1 : Store :=
          { w.store with channel_streams :=
              w.store.channel_streams.eraseP (fun r => decide (r = cs)) }
        let store2 : Store :=
          if (get_channel_stream store1 (some channel.id) none).isEmpty then
            { store1 with channels :=
                store1.channels.eraseP (fun r => decide (r = ch_db)) }
          else store1
        if (get_channel_stream store2 none (some sid)).isEmpty then
          match reg_lookup w.streams_by_id st_db.id with
          | none => none
          | some _ =>
            some ({ streams_by_id := reg_erase w.streams_by_id st_db.id,
                    store :=
                      { store2 with streams :=
                          store2.streams.eraseP (fun r => decide (r = st_db)) } },
                  true)
        else
          some ({ w with store := store2 }, true)
      | _, _ => none

/-- The loop body of `on_guild_channel_delete`: for each subscription row of
the deleted channel (fetched once up front), delete the row, then delete
the stream row when no subscription references the stream anymore.  The
channel row and the registry are not touched.  `none` models the `[0]`
indexing exception on a missing stream row. -/
def guild_delete_go : World → List ChannelStream → Option World
  | w, [] => some w
  | w, cs :: rest =>
    match get_stream_q w.store (some cs.stream_id) none with
    | [] => none
    | st_db :: _ =>
      let store1 : Store :=
        { w.store with channel_streams :=
            w.store.channel_streams.eraseP (fun r => decide (r = cs)) }
      let w1 : World :=
        if (get_channel_stream store1 none (some cs.stream_id)).isEmpty then
          { w with store :=
              { store1 with streams :=
                  store1.streams.eraseP (fun r => decide (r = st_db)) } }
        else { w with store := store1 }
      guild_delete_go w1 rest

/-- `on_guild_channel_delete(channel)`: handle the external deletion of a
Discord channel. -/
def on_guild_channel_delete (w : World) (cid : Nat) : Option World :=
  guild_delete_go w (get_channel_stream w.store (some cid) none)

/-- Removing a present message id shortens the notification list by one. -/
theorem remove_notification_length (l : List Notification) (a : Nat)
    (h : ∃ x ∈ l, x.id = a) :
    (remove_notification l a).length + 1 = l.length := by
  induction l with
  | nil => obtain ⟨x, hx, _⟩ := h; cases hx
  | cons y ys ih =>
    by_cases hy : y.id = a
    · simp [remove_notification, hy]
    · obtain ⟨x, hx, hxa⟩ := h
      rcases List.mem_cons.mp hx with h1 | h1
      · exact absurd (h1 ▸ hxa) hy
      · have := ih ⟨x, h1, hxa⟩
        simp only [remove_notification, hy, if_false, List.length_cons]
        omega

/-- When the dispatcher never fails with anything but `NotFound`, the
offline edit loop never reports a failure. -/
theorem offline_loop_no_err (edit : Nat → EditResult)
    (hed : ∀ n, edit n ≠ EditResult.err) :
    ∀ (fuel i : Nat) (l : List Notification) (ed : List Nat),
      l.length - i ≤ fuel → (offline_loop edit i l ed).2.2 = false := by
  intro fuel
  induction fuel with
  | zero =>
    intro i l ed h
    rw [offline_loop.eq_def]
    have hn : ¬ i < l.length := by omega
    simp [hn]
  | succ f ih =>
    intro i l ed h
    rw [offline_loop.eq_def]
    split
    · next hi =>
      split
      · next heq =>
        apply ih
        have hm : ∃ x ∈ l, x.id = l[i].id := ⟨l[i], List.getElem_mem hi, rfl⟩
        have := remove_notification_length l (l[i].id) hm
        omega
      · next heq => exact ih (i + 1) l ed (by omega)
      · next heq => exact absurd heq (hed _)
    · rfl

/-- The shape of the offline edit loop when every edit succeeds: starting
at index `i`, each step removes the current element and skips over the one
sliding into its place, so the loop performs `ceil((length - i) / 2)` edits
and leaves `length - ceil((length - i) / 2)` handles behind, and no failure
is reported. -/
theorem offline_loop_allok (edit : Nat → EditResult)
    (hok : ∀ n, edit n = EditResult.ok) :
    ∀ (fuel i : Nat) (l : List Notification) (ed : List Nat),
      l.length - i ≤ fuel →
      (offline_loop edit i l ed).1.length
          = l.length - (l.length - i + 1) / 2 ∧
      (offline_loop edit i l ed).2.1.length
          = ed.length + (l.length - i + 1) / 2 := by
  intro fuel
  induction fuel with
  | zero =>
    intro i l ed h
    rw [offline_loop.eq_def]
    have hn : ¬ i < l.length := by omega
    simp only [hn, dite_false]
    omega
  | succ f ih =>
    intro i l ed h
    rw [offline_loop.eq_def]
    split
    · next hi =>
      split
      · next heq =>
        have h1 := remove_notification_length l (l[i].id)
          ⟨l[i], List.getElem_mem hi, rfl⟩
        have h2 := ih (i + 1) (remove_notification l (l[i].id))
          (ed ++ [l[i].id]) (by omega)
        obtain ⟨ha, hb⟩ := h2
        constructor
        · rw [ha]; omega
        · rw [hb]; simp only [List.length_append, List.length_cons,
            List.length_nil]; omega
      · next heq => rw [hok] at heq; cases heq
      · next heq => rw [hok] at heq; cases heq
    · next hi =>
      have : l.length - i = 0 := by omega
      constructor <;> simp <;> omega

/-- In-place registry mutation never changes which keys are present. -/
theorem reg_lookup_set (l : List (Nat × Stream)) (k : Nat) (v : Stream)
    (j : Nat) :
    (reg_lookup (reg_set l k v) j).isSome = (reg_lookup l j).isSome := by
  induction l with
  | nil => rfl
  | cons e rest ih =>
    obtain ⟨k', v'⟩ := e
    by_cases hk : k' = k
    · subst hk
      by_cases hj : k' = j <;> simp [reg_set, reg_lookup, hj]
    · by_cases hj : k' = j
      · subst hj
        simp [reg_set, reg_lookup, hk]
      · simp [reg_set, reg_lookup, hk, hj, ih]

/-- In-place registry mutation never changes which keys are absent. -/
theorem reg_lookup_set_none (l : List (Nat × Stream)) (k : Nat) (v : Stream)
    (j : Nat) :
    (reg_lookup (reg_set l k v) j = none) ↔ (reg_lookup l j = none) := by
  have h := reg_lookup_set l k v j
  constructor <;> intro hn <;>
    [rw [hn] at h; rw [hn] at h] <;>
    [skip; skip] <;> first
    | exact Option.not_isSome_iff_eq_none.mp (by rw [← h]; simp)
    | exact Option.not_isSome_iff_eq_none.mp (by rw [h]; simp)

/-- A key of the fan-out table built so far, after one `defaultdict`
insertion. -/
theorem fanout_add_keys (acc : List (Nat × List (Nat × Bool)))
    (cs : ChannelStream) (k : Nat) :
    k ∈ (fanout_add acc cs).map Prod.fst ↔
      k ∈ acc.map Prod.fst ∨ cs.stream_id = k := by
  induction acc with
  | nil => simp [fanout_add, eq_comm]
  | cons e rest ih =>
    obtain ⟨k', v⟩ := e
    by_cases hk : k' = cs.stream_id
    · subst hk
      simp [fanout_add]
      tauto
    · simp [fanout_add, hk, ih]
      tauto

/-- The keys of the fan-out table are exactly the stream ids of the
subscription rows. -/
theorem channels_by_stream_id_keys (rows : List ChannelStream) :
    ∀ (acc : List (Nat × List (Nat × Bool))) (k : Nat),
      (k ∈ (rows.foldl fanout_add acc).map Prod.fst ↔
        k ∈ acc.map Prod.fst ∨ ∃ cs ∈ rows, cs.stream_id = k) := by
  induction rows with
  | nil => simp
  | cons r rest ih =>
    intro acc k
    simp only [List.foldl_cons]
    rw [ih (fanout_add acc r) k, fanout_add_keys]
    simp only [List.mem_cons]
    constructor
    · rintro ((h | h) | ⟨cs, hcs, hk⟩)
      · exact Or.inl h
      · exact Or.inr ⟨r, Or.inl rfl, h⟩
      · exact Or.inr ⟨cs, Or.inr hcs, hk⟩
    · rintro (h | ⟨cs, (hcs | hcs), hk⟩)
      · exact Or.inl (Or.inl h)
      · exact Or.inl (Or.inr (hcs ▸ hk))
      · exact Or.inr ⟨cs, hcs, hk⟩

/-- When the dispatcher never fails on posts, the online notification loop
never reports a failure. -/
theorem online_loop_no_err (post : Nat × Bool → PostResult)
    (hp : ∀ c, post c ≠ PostResult.err) :
    ∀ (cs : List (Nat × Bool)) (acc : List Notification),
      (online_loop post cs acc).2 = false := by
  intro cs
  induction cs with
  | nil => intro acc; rfl
  | cons c rest ih =>
    intro acc
    cases hc : post c with
    | ok n => simp [online_loop, hc, ih]
    | err => exact absurd hc (hp c)

/-- When the dispatcher never fails (not-found excepted), reconciling one
stream never lets a failure escape. -/
theorem reconcile_no_err (conf_min now : Nat) (o : Oracles)
    (hp : ∀ sid c, o.post sid c ≠ PostResult.err)
    (he : ∀ n, o.edit n ≠ EditResult.err)
    (status : List (Nat × String)) (nc : List (Nat × Bool)) (s : Stream) :
    (reconcile_stream conf_min now o status nc s).errored = false := by
  have hol : ∀ sid cs acc, (online_loop (o.post sid) cs acc).2 = false :=
    fun sid => online_loop_no_err (o.post sid) (hp sid)
  have hofl : ∀ l, (on_stream_offline o.edit l).2.2 = false := fun l =>
    offline_loop_no_err o.edit he l.length 0 l [] (by omega)
  unfold reconcile_stream on_stream_offline at hofl ⊢
  cases hst : status_lookup status s.id <;>
    simp [hol, hofl, apply_ite ProcOut.errored]

/-- The reconciliation loop raises no `KeyError` when every fan-out key is
registered: the registry's key set is invariant under the per-stream
in-place mutations. -/
theorem poll_tick_go_no_keyerr (conf_min now : Nat) (o : Oracles)
    (status : List (Nat × String)) :
    ∀ (fan : List (Nat × List (Nat × Bool))) (w : World),
      (∀ k ∈ fan.map Prod.fst,
        (reg_lookup w.streams_by_id k).isSome = true) →
      ∀ j, (poll_tick_go conf_min now o status fan w).2 ≠
        some (Exn.keyError j) := by
  intro fan
  induction fan with
  | nil => intro w _ j; simp [poll_tick_go]
  | cons e rest ih =>
    obtain ⟨sid, nc⟩ := e
    intro w hall j
    have hs : (reg_lookup w.streams_by_id sid).isSome = true :=
      hall sid (by simp)
    simp only [poll_tick_go]
    cases hlk : reg_lookup w.streams_by_id sid with
    | none => rw [hlk] at hs; cases hs
    | some s =>
      simp only []
      split
      · simp
      · exact ih _ (fun k hk => by
          rw [reg_lookup_set]
          exact hall k (List.mem_cons_of_mem _ hk)) j

/-- With a failure-free dispatcher, a fan-out key missing from the registry
makes the reconciliation loop end in a `KeyError` on a missing key. -/
theorem poll_tick_go_keyerr (conf_min now : Nat) (o : Oracles)
    (status : List (Nat × String))
    (hp : ∀ sid c, o.post sid c ≠ PostResult.err)
    (he : ∀ n, o.edit n ≠ EditResult.err) :
    ∀ (fan : List (Nat × List (Nat × Bool))) (w : World),
      (∃ k ∈ fan.map Prod.fst, reg_lookup w.streams_by_id k = none) →
      ∃ j, (poll_tick_go conf_min now o status fan w).2 =
          some (Exn.keyError j) ∧
        reg_lookup w.streams_by_id j = none := by
  intro fan
  induction fan with
  | nil => intro w hex; obtain ⟨k, hk, _⟩ := hex; simp at hk
  | cons e rest ih =>
    obtain ⟨sid, nc⟩ := e
    intro w hex
    simp only [poll_tick_go]
    cases hlk : reg_lookup w.streams_by_id sid with
    | none => exact ⟨sid, by simp, hlk⟩
    | some s =>
      have hne := reconcile_no_err conf_min now o hp he status nc s
      simp only [hne, Bool.false_eq_true, if_false]
      obtain ⟨k, hk, hknone⟩ := hex
      simp only [List.map_cons, List.mem_cons] at hk
      rcases hk with hk | hk
      · rw [hk] at hknone; rw [hknone] at hlk; cases hlk
      · have hset : ∀ i, reg_lookup (reg_set w.streams_by_id sid
            (reconcile_stream conf_min now o status nc s).stream) i = none ↔
              reg_lookup w.streams_by_id i = none :=
          fun i => reg_lookup_set_none w.streams_by_id sid _ i
        obtain ⟨j, hj1, hj2⟩ := ih
          ⟨reg_set w.streams_by_id sid
              (reconcile_stream conf_min now o status nc s).stream,
           apply_name_update w.store
              (reconcile_stream conf_min now o status nc s).name_update⟩
          ⟨k, hk, (hset k).mpr hknone⟩
        exact ⟨j, hj1, (hset j).mp hj2⟩

/-- Dictionary assignment of a fresh key appends the entry. -/
theorem reg_insert_of_none (l : List (Nat × Stream)) (k : Nat) (v : Stream)
    (h : reg_lookup l k = none) : reg_insert l k v = l ++ [(k, v)] := by
  induction l with
  | nil => rfl
  | cons e rest ih =>
    obtain ⟨k', v'⟩ := e
    by_cases hk : k' = k
    · simp [reg_lookup, hk] at h
    · simp [reg_insert, hk, ih (by simpa [reg_lookup, hk] using h)]

/-- A key the lookup misses occurs zero times among the entries. -/
theorem reg_count_zero_of_none (l : List (Nat × Stream)) (k : Nat)
    (h : reg_lookup l k = none) :
    l.countP (fun e => decide (e.1 = k)) = 0 := by
  induction l with
  | nil => rfl
  | cons e rest ih =>
    obtain ⟨k', v'⟩ := e
    by_cases hk : k' = k
    · simp [reg_lookup, hk] at h
    · simp [List.countP_cons, hk, ih (by simpa [reg_lookup, hk] using h)]

/-- A query counting zero matching rows returns no rows. -/
theorem filter_nil_of_countP_zero {α : Type} (p : α → Bool) (l : List α)
    (h : l.countP p = 0) : l.filter p = [] := by
  have h2 : (l.filter p).length = 0 := by
    rw [← List.countP_eq_length_filter]; exact h
  exact List.length_eq_zero.mp h2

/-- A query counting exactly one matching row returns that row alone. -/
theorem filter_singleton_of_countP_one {α : Type} (p : α → Bool) (l : List α)
    (h : l.countP p = 1) : ∃ x, l.filter p = [x] ∧ p x = true ∧ x ∈ l := by
  have h2 : (l.filter p).length = 1 := by
    rw [← List.countP_eq_length_filter]; exact h
  obtain ⟨x, hx⟩ := List.length_eq_one.mp h2
  have hxf : x ∈ l.filter p := by rw [hx]; exact List.mem_singleton.mpr rfl
  exact ⟨x, hx, (List.mem_filter.mp hxf).2, (List.mem_filter.mp hxf).1⟩

/-- With exactly one matching row, a known matching member is that row. -/
theorem filter_eq_singleton_of_mem {α : Type} (p : α → Bool) (l : List α)
    (x : α) (h : l.countP p = 1) (hx : x ∈ l) (hpx : p x = true) :
    l.filter p = [x] := by
  obtain ⟨y, hy, _, _⟩ := filter_singleton_of_countP_one p l h
  have hxf : x ∈ l.filter p := List.mem_filter.mpr ⟨hx, hpx⟩
  rw [hy] at hxf
  rw [hy, List.mem_singleton.mp hxf]

/-- Erasing the first `p`-row decrements a `q`-count when every `p`-row is
a `q`-row and some `p`-row exists. -/
theorem countP_eraseP_sat {α : Type} (p q : α → Bool) (l : List α)
    (hq : ∀ x ∈ l, p x = true → q x = true)
    (hex : ∃ x ∈ l, p x = true) :
    (l.eraseP p).countP q + 1 = l.countP q := by
  induction l with
  | nil => obtain ⟨x, hx, _⟩ := hex; cases hx
  | cons a t ih =>
    by_cases hpa : p a = true
    · rw [List.eraseP_cons_of_pos hpa, List.countP_cons]
      have hqa := hq a (List.mem_cons_self a t) hpa
      simp [hqa]
    · rw [List.eraseP_cons_of_neg hpa, List.countP_cons, List.countP_cons]
      have hex2 : ∃ x ∈ t, p x = true := by
        obtain ⟨x, hx, hpx⟩ := hex
        rcases List.mem_cons.mp hx with hxa | hxt
        · exact absurd (hxa ▸ hpx) hpa
        · exact ⟨x, hxt, hpx⟩
      have := ih (fun x hx hpx => hq x (List.mem_cons_of_mem a hx) hpx) hex2
      omega

/-- Erasing the first `p`-row preserves a `q`-count when no `p`-row is a
`q`-row. -/
theorem countP_eraseP_keep {α : Type} (p q : α → Bool) (l : List α)
    (hq : ∀ x ∈ l, p x = true → q x = false) :
    (l.eraseP p).countP q = l.countP q := by
  induction l with
  | nil => rfl
  | cons a t ih =>
    by_cases hpa : p a = true
    · rw [List.eraseP_cons_of_pos hpa, List.countP_cons]
      have := hq a (List.mem_cons_self a t) hpa
      simp [this]
    · rw [List.eraseP_cons_of_neg hpa, List.countP_cons, List.countP_cons,
        ih (fun x hx hpx => hq x (List.mem_cons_of_mem a hx) hpx)]

/-- C4: a tick on which the status provider returns no answer (`None`)
mutates no state: registry and store are identical before and after, no
failure escapes, and the loop proceeds to the next tick. -/
theorem no_answer_tick_is_noop (conf_min now : Nat) (o : Oracles) (w : World) :
    poll_tick conf_min now o w none = (w, none) := rfl

/-- C2: evaluation of `on_stream_offline` at failing inputs.  With two
outstanding handles whose edits both succeed, only the first is edited and
dropped and the second remains outstanding (the claim says every handle is
edited); with one handle whose edit signals not-found, the handle is not
dropped from the list (the claim says it is dropped). -/
theorem on_stream_offline_keeps_handles :
    (on_stream_offline (fun _ => EditResult.ok) [⟨1⟩, ⟨2⟩]).1 = [⟨2⟩] ∧
    (on_stream_offline (fun _ => EditResult.ok) [⟨1⟩, ⟨2⟩]).2.1 = [1] ∧
    (on_stream_offline (fun _ => EditResult.notFound) [⟨3⟩]).1 = [⟨3⟩] := by
  refine ⟨?_, ?_, ?_⟩ <;> simp [on_stream_offline, offline_loop, remove_notification]

/-- C3: evaluation of `on_guild_channel_delete` at the failing input: one
channel holding the only subscription to one stream.  The subscription row
and the stream row are removed, but the channel row stays in the store and
the stream id stays registered in `streams_by_id` (the claim says the
destination row is removed and the id unregistered). -/
theorem guild_channel_delete_leaks :
    on_guild_channel_delete
        ⟨[(1, ⟨1, "a", false, none, []⟩)],
         ⟨[⟨1, "a"⟩], [⟨5, "c", 1, "g"⟩], [⟨5, 1, false⟩]⟩⟩ 5 =
      some ⟨[(1, ⟨1, "a", false, none, []⟩)],
            ⟨[], [⟨5, "c", 1, "g"⟩], []⟩⟩ := by
  decide

/-- C5: evaluation of the polling loop at the failing input: two streams
going online in the same tick, with the dispatcher failing on the first
post.  The failure escapes the iteration (`dispatchErr`), the second
stream's reconciliation never runs (it stays offline although its post
would have succeeded), and the loop stops: the second tick, in which the
second stream alone is live, is never executed. -/
theorem dispatch_failure_aborts_tick_and_loop :
    poll_streams 30
        ⟨fun sid _ => if sid = 1 then PostResult.err else PostResult.ok ⟨100⟩,
         fun _ => EditResult.ok⟩
        [(100, some [(1, "a"), (2, "b")]), (200, some [(2, "b")])]
        ⟨[(1, ⟨1, "a", false, none, []⟩), (2, ⟨2, "b", false, none, []⟩)],
         ⟨[⟨1, "a"⟩, ⟨2, "b"⟩], [⟨10, "c1", 1, "g"⟩, ⟨20, "c2", 1, "g"⟩],
          [⟨10, 1, false⟩, ⟨20, 2, false⟩]⟩⟩ =
      (⟨[(1, ⟨1, "a", false, none, []⟩), (2, ⟨2, "b", false, none, []⟩)],
        ⟨[⟨1, "a"⟩, ⟨2, "b"⟩], [⟨10, "c1", 1, "g"⟩, ⟨20, "c2", 1, "g"⟩],
         [⟨10, 1, false⟩, ⟨20, 2, false⟩]⟩⟩,
       some Exn.dispatchErr) := by
  decide

/-- C1: the offline debounce, for a stream absent from the provider
response while the dispatcher raises nothing but `NotFound`.
(a) On the first absent observation of an online stream (null last-offline
timestamp) the timestamp is stamped with the current time and nothing else
happens: the transition never fires on that tick.
(b) On a subsequent absent observation with the timestamp stamped at `T0`,
the offline transition (outstanding handles edited, online flag set false)
fires iff `now - T0 > MIN_OFFLINE_DURATION`.
(c) Once the online flag is false the absent observation is a no-op, so the
transition fires at most once per online-to-offline edge. -/
theorem offline_debounce (conf_min now t0 : Nat) (o : Oracles)
    (st : List (Nat × String)) (nc : List (Nat × Bool)) (s : Stream)
    (habs : status_lookup st s.id = none)
    (hedit : ∀ n, o.edit n ≠ EditResult.err) :
    (s.is_online = true → s.last_offline_date = none →
      reconcile_stream conf_min now o st nc s =
        { stream := { s with last_offline_date := some now },
          name_update := none, errored := false })
  ∧ (s.is_online = true → s.last_offline_date = some t0 →
      ((reconcile_stream conf_min now o st nc s).stream.is_online = false ↔
        now - t0 > conf_min))
  ∧ (s.is_online = false →
      reconcile_stream conf_min now o st nc s =
        { stream := s, name_update := none, errored := false }) := by
  refine ⟨?_, ?_, ?_⟩
  · intro hon hnull
    unfold reconcile_stream
    rw [habs, hon, hnull]
    simp [offline_duration]
  · intro hon ht0
    unfold reconcile_stream
    rw [habs, hon, ht0]
    by_cases hgt : now - t0 > conf_min
    · have hne := offline_loop_no_err o.edit hedit s.notifications.length 0
        s.notifications [] (by omega)
      simp [offline_duration, hgt, on_stream_offline, hne]
    · simp [offline_duration, hgt, hon]
  · intro hoff
    unfold reconcile_stream
    rw [habs, hoff]
    simp

/-- C1 witness: first absent observation of a concrete online stream at
time 100 stamps the timestamp and fires nothing. -/
theorem offline_debounce_witness :
    reconcile_stream 30 100 ⟨fun _ _ => PostResult.err, fun _ => EditResult.ok⟩
        [] [] ⟨1, "a", true, none, [⟨7⟩]⟩ =
      { stream := ⟨1, "a", true, some 100, [⟨7⟩]⟩, name_update := none,
        errored := false } :=
  (offline_debounce 30 100 0 ⟨fun _ _ => PostResult.err, fun _ => EditResult.ok⟩
      [] [] ⟨1, "a", true, none, [⟨7⟩]⟩ rfl
      (fun _ h => EditResult.noConfusion h)).1 rfl rfl

/-- C6 counterexample: a stream with online flag false, null last-offline
timestamp and absent from the provider response.  The claim says the tick
stamps the last-offline timestamp with the current time (100); the
short-circuited guard never accesses `offline_duration`, so no stamp
happens. -/
theorem first_absence_stamp_cex :
    (reconcile_stream 30 100 ⟨fun _ _ => PostResult.err, fun _ => EditResult.ok⟩
        [] [] ⟨1, "a", false, none, []⟩).stream.last_offline_date ≠ some 100 := by
  decide

/-- C6 amended: an absent observation of a stream whose online flag is
false is a complete no-op, whatever its last-offline timestamp: the guard
short-circuits on the flag, so `offline_duration` is never accessed and
even a null timestamp is not stamped. -/
theorem absent_offline_stream_noop (conf_min now : Nat) (o : Oracles)
    (st : List (Nat × String)) (nc : List (Nat × Bool)) (s : Stream)
    (habs : status_lookup st s.id = none) (hoff : s.is_online = false) :
    reconcile_stream conf_min now o st nc s =
      { stream := s, name_update := none, errored := false } := by
  unfold reconcile_stream
  rw [habs, hoff]
  simp

/-- C6 amended, witness: the no-op at a concrete offline stream with a null
last-offline timestamp. -/
theorem absent_offline_stream_noop_witness :
    reconcile_stream 30 100 ⟨fun _ _ => PostResult.err, fun _ => EditResult.ok⟩
        [] [] ⟨1, "a", false, none, []⟩ =
      { stream := ⟨1, "a", false, none, []⟩, name_update := none,
        errored := false } :=
  absent_offline_stream_noop 30 100 _ [] [] _ rfl rfl

/-- C9: when a stream goes offline with `n ≥ 2` outstanding handles whose
edits all succeed, `on_stream_offline` edits and removes only
`ceil(n / 2) = (n + 1) / 2` of them — removing elements of
`stream.notifications` while iterating over it skips the handle that slides
into the removed one's place — and the outstanding list is non-empty
afterwards (`n / 2` handles remain). -/
theorem offline_transition_edits_half (l : List Notification)
    (h2 : 2 ≤ l.length) :
    (on_stream_offline (fun _ => EditResult.ok) l).2.1.length
        = (l.length + 1) / 2 ∧
    (on_stream_offline (fun _ => EditResult.ok) l).1.length = l.length / 2 ∧
    (on_stream_offline (fun _ => EditResult.ok) l).1 ≠ [] := by
  obtain ⟨ha, hb⟩ := offline_loop_allok (fun _ => EditResult.ok) (fun _ => rfl)
    l.length 0 l [] (by omega)
  simp only [on_stream_offline]
  refine ⟨?_, ?_, ?_⟩
  · rw [hb]; simp only [List.length_nil]; omega
  · rw [ha]; omega
  · exact List.length_pos.mp (by rw [ha]; omega)

/-- C10: the reconciliation indexes the registry with
`self.streams_by_id[stream_id]` for every stream id of the subscription
rows, with no guard.  (a) The lookup is total when every row's stream id is
a registered key: no `KeyError` can escape the tick.  (b) Conversely (with
a dispatcher that does not fail first), a subscription row whose stream id
is absent from the registry makes the tick end in a `KeyError` on an
unregistered id. -/
theorem unguarded_registry_lookup (conf_min now : Nat) (o : Oracles)
    (w : World) (st : List (Nat × String)) :
    ((∀ cs ∈ w.store.channel_streams,
        (reg_lookup w.streams_by_id cs.stream_id).isSome = true) →
      ∀ j, (poll_tick conf_min now o w (some st)).2 ≠ some (Exn.keyError j))
  ∧ ((∀ sid c, o.post sid c ≠ PostResult.err) →
     (∀ n, o.edit n ≠ EditResult.err) →
     (∃ cs ∈ w.store.channel_streams,
        reg_lookup w.streams_by_id cs.stream_id = none) →
      ∃ j, (poll_tick conf_min now o w (some st)).2 = some (Exn.keyError j) ∧
        reg_lookup w.streams_by_id j = none) := by
  constructor
  · intro hall j
    simp only [poll_tick]
    apply poll_tick_go_no_keyerr
    intro k hk
    rw [channels_by_stream_id] at hk
    rw [channels_by_stream_id_keys] at hk
    rcases hk with hk | ⟨cs, hcs, hcsk⟩
    · simp at hk
    · exact hcsk ▸ hall cs hcs
  · intro hp he hex
    obtain ⟨cs, hcs, hnone⟩ := hex
    simp only [poll_tick]
    apply poll_tick_go_keyerr conf_min now o st hp he
    refine ⟨cs.stream_id, ?_, hnone⟩
    rw [channels_by_stream_id, channels_by_stream_id_keys]
    exact Or.inr ⟨cs, hcs, rfl⟩

/-- C10 witness: with the single subscription row's stream id registered,
no `KeyError` escapes the concrete tick. -/
theorem unguarded_registry_lookup_witness :
    (poll_tick 30 100 ⟨fun _ _ => PostResult.ok ⟨9⟩, fun _ => EditResult.ok⟩
        ⟨[(1, ⟨1, "a", false, none, []⟩)], ⟨[⟨1, "a"⟩], [], [⟨5, 1, false⟩]⟩⟩
        (some [])).2 ≠ some (Exn.keyError 7) :=
  (unguarded_registry_lookup 30 100
      ⟨fun _ _ => PostResult.ok ⟨9⟩, fun _ => EditResult.ok⟩
      ⟨[(1, ⟨1, "a", false, none, []⟩)], ⟨[⟨1, "a"⟩], [], [⟨5, 1, false⟩]⟩⟩
      []).1 (by decide) 7

/-- C7: adding the same subscription twice (fresh stream, fresh
subscription) creates exactly one subscription row for the
(channel, stream) pair and registers the stream id exactly once in
`streams_by_id`; the second call changes nothing and returns false. -/
theorem add_subscription_idempotent (ids : String → Option Nat) (w : World)
    (ch : Channel) (stream_name : String) (everyone : Bool) (sid : Nat)
    (hid : ids (py_lower stream_name) = some sid)
    (hnosub : get_channel_stream w.store (some ch.id) (some sid) = [])
    (hnostream : get_stream_q w.store none (some (py_lower stream_name)) = [])
    (hnoreg : reg_lookup w.streams_by_id sid = none) :
    ∃ w1, _add_stream ids w ch stream_name everyone = some (w1, true) ∧
      _add_stream ids w1 ch stream_name everyone = some (w1, false) ∧
      (get_channel_stream w1.store (some ch.id) (some sid)).length = 1 ∧
      w1.streams_by_id.countP (fun e => decide (e.1 = sid)) = 1 := by
  have hsubfil : w.store.channel_streams.filter (fun cs =>
      opt_match (some ch.id) cs.channel_id && opt_match (some sid) cs.stream_id)
        = [] := by
    simpa [get_channel_stream] using hnosub
  have hnosub2 : ∀ a ∈ w.store.channel_streams,
      ch.id = a.channel_id → ¬sid = a.stream_id := by
    intro a ha h1 h2
    have hmem : a ∈ w.store.channel_streams.filter (fun cs =>
        opt_match (some ch.id) cs.channel_id
          && opt_match (some sid) cs.stream_id) :=
      List.mem_filter.mpr ⟨ha, by simp [opt_match, h1, h2]⟩
    rw [hsubfil] at hmem
    cases hmem
  by_cases hch : (get_channel_q w.store (some ch.id)).isEmpty
  · have hch2 : ∀ a ∈ w.store.channels, opt_match (some ch.id) a.id = false := by
      simpa [get_channel_q, List.isEmpty_iff, List.filter_eq_nil_iff] using hch
    refine ⟨⟨reg_insert w.streams_by_id sid (new_stream sid (py_lower stream_name)),
        ⟨w.store.streams ++ [⟨sid, py_lower stream_name⟩],
         w.store.channels ++ [ch],
         w.store.channel_streams ++ [⟨ch.id, sid, everyone⟩]⟩⟩, ?_, ?_, ?_, ?_⟩
    · simp [_add_stream, hid, hnosub, hnostream, get_channel_q, hch2]
      simp [if_pos hch2]
    · simp [_add_stream, hid, get_channel_stream, List.filter_append, hsubfil,
        opt_match, hnosub2]
    · simp [get_channel_stream, List.filter_append, hsubfil, opt_match]
      exact hnosub2
    · show (reg_insert w.streams_by_id sid _).countP _ = 1
      rw [reg_insert_of_none _ _ _ hnoreg, List.countP_append,
        reg_count_zero_of_none _ _ hnoreg]
      simp
  · have hch3 : ¬ ∀ a ∈ w.store.channels, opt_match (some ch.id) a.id = false := by
      simpa [get_channel_q, List.isEmpty_iff, List.filter_eq_nil_iff] using hch
    refine ⟨⟨reg_insert w.streams_by_id sid (new_stream sid (py_lower stream_name)),
        ⟨w.store.streams ++ [⟨sid, py_lower stream_name⟩],
         w.store.channels,
         w.store.channel_streams ++ [⟨ch.id, sid, everyone⟩]⟩⟩, ?_, ?_, ?_, ?_⟩
    · simp [_add_stream, hid, hnosub, hnostream, get_channel_q, hch3]
    · simp [_add_stream, hid, get_channel_stream, List.filter_append, hsubfil,
        opt_match, hnosub2]
    · simp [get_channel_stream, List.filter_append, hsubfil, opt_match]
      exact hnosub2
    · show (reg_insert w.streams_by_id sid _).countP _ = 1
      rw [reg_insert_of_none _ _ _ hnoreg, List.countP_append,
        reg_count_zero_of_none _ _ hnoreg]
      simp

/-- C7 witness: a concrete fresh subscription added twice. -/
theorem add_subscription_idempotent_witness :
    ∃ w1, _add_stream (fun s => if s = "x" then some 1 else none)
        ⟨[], ⟨[], [], []⟩⟩ ⟨10, "c", 1, "g"⟩ "x" false = some (w1, true) ∧
      _add_stream (fun s => if s = "x" then some 1 else none)
        w1 ⟨10, "c", 1, "g"⟩ "x" false = some (w1, false) ∧
      (get_channel_stream w1.store (some 10) (some 1)).length = 1 ∧
      w1.streams_by_id.countP (fun e => decide (e.1 = 1)) = 1 :=
  add_subscription_idempotent (fun s => if s = "x" then some 1 else none)
    ⟨[], ⟨[], [], []⟩⟩ ⟨10, "c", 1, "g"⟩ "x" false 1
    (by decide) (by decide) (by decide) (by decide)

/-- Re-adding a subscription to a store holding no row for the
(channel, stream) pair, where the stream rows are either wholly absent
(freshly deleted) or uniquely present, and the channel row is either absent
or uniquely present, succeeds and leaves exactly one subscription row, one
stream row and one channel row. -/
theorem add_stream_restores (ids : String → Option Nat) (w : World)
    (ch : Channel) (nm : String) (everyone : Bool) (sid : Nat)
    (hid : ids nm = some sid)
    (hlow : py_lower nm = nm)
    (hnosub : get_channel_stream w.store (some ch.id) (some sid) = [])
    (hstream : (get_stream_q w.store none (some nm) = [] ∧
        (get_stream_q w.store (some sid) none).length = 0) ∨
      ((get_stream_q w.store none (some nm)).length = 1 ∧
        (get_stream_q w.store (some sid) none).length = 1))
    (hchan : (get_channel_q w.store (some ch.id)).length = 0 ∨
      (get_channel_q w.store (some ch.id)).length = 1) :
    ∃ w2, _add_stream ids w ch nm everyone = some (w2, true) ∧
      (get_channel_stream w2.store (some ch.id) (some sid)).length = 1 ∧
      (get_stream_q w2.store (some sid) none).length = 1 ∧
      (get_channel_q w2.store (some ch.id)).length = 1 := by
  have hnosub2 : ∀ a ∈ w.store.channel_streams,
      ch.id = a.channel_id → ¬sid = a.stream_id := by
    intro a ha h1 h2
    have hmem : a ∈ w.store.channel_streams.filter (fun cs =>
        opt_match (some ch.id) cs.channel_id
          && opt_match (some sid) cs.stream_id) :=
      List.mem_filter.mpr ⟨ha, by simp [opt_match, h1, h2]⟩
    have hmem2 : a ∈ get_channel_stream w.store (some ch.id) (some sid) := hmem
    rw [hnosub] at hmem2
    cases hmem2
  rcases hstream with ⟨hse, hsz⟩ | ⟨hsn, hs1⟩
  · -- the stream rows were deleted: the call re-creates the stream row
    have hszfil : w.store.streams.filter (fun r =>
        opt_match (some sid) r.id && opt_match_str none r.name) = [] :=
      filter_nil_of_countP_zero _ _ (by
        rw [List.countP_eq_length_filter]; exact hsz)
    have hsz2 : ∀ a ∈ w.store.streams, ¬sid = a.id := by
      intro a ha h1
      have hmem : a ∈ w.store.streams.filter (fun r =>
          opt_match (some sid) r.id && opt_match_str none r.name) :=
        List.mem_filter.mpr ⟨ha, by simp [opt_match, opt_match_str, h1]⟩
      rw [hszfil] at hmem
      cases hmem
    rcases hchan with hc0 | hc1
    · have hcfil : w.store.channels.filter (fun c =>
          opt_match (some ch.id) c.id) = [] :=
        filter_nil_of_countP_zero _ _ (by
          rw [List.countP_eq_length_filter]; exact hc0)
      have hce : (get_channel_q w.store (some ch.id)).isEmpty = true := by
        show (w.store.channels.filter _).isEmpty = true
        rw [hcfil]; rfl
      refine ⟨⟨reg_insert w.streams_by_id sid (new_stream sid nm),
          ⟨w.store.streams ++ [⟨sid, nm⟩],
           w.store.channels ++ [ch],
           w.store.channel_streams ++ [⟨ch.id, sid, everyone⟩]⟩⟩, ?_, ?_, ?_, ?_⟩
      · simp [_add_stream, hid, hlow, hnosub, hse, get_channel_q, hcfil]
      · simp [get_channel_stream, List.filter_append, opt_match]
        exact hnosub2
      · simp [get_stream_q, List.filter_append, opt_match, opt_match_str]
        exact hsz2
      · simp [get_channel_q, List.filter_append, opt_match]
        intro a ha h1
        have hmem : a ∈ w.store.channels.filter (fun c =>
            opt_match (some ch.id) c.id) :=
          List.mem_filter.mpr ⟨ha, by simp [opt_match, h1]⟩
        rw [hcfil] at hmem
        cases hmem
    · obtain ⟨c0, hcfil, hpc0, _⟩ := filter_singleton_of_countP_one
        (fun c => opt_match (some ch.id) c.id) w.store.channels (by
          rw [List.countP_eq_length_filter]; exact hc1)
      refine ⟨⟨reg_insert w.streams_by_id sid (new_stream sid nm),
          ⟨w.store.streams ++ [⟨sid, nm⟩],
           w.store.channels,
           w.store.channel_streams ++ [⟨ch.id, sid, everyone⟩]⟩⟩, ?_, ?_, ?_, ?_⟩
      · simp [_add_stream, hid, hlow, hnosub, hse, get_channel_q, hcfil]
      · simp [get_channel_stream, List.filter_append, opt_match]
        exact hnosub2
      · simp [get_stream_q, List.filter_append, opt_match, opt_match_str]
        exact hsz2
      · show (w.store.channels.filter _).length = 1
        rw [hcfil]; rfl
  · -- the stream rows survived: the call leaves them untouched
    obtain ⟨s0, hsfil, hps0, _⟩ := filter_singleton_of_countP_one
      (fun r => opt_match none r.id && opt_match_str (some nm) r.name)
      w.store.streams (by rw [List.countP_eq_length_filter]; exact hsn)
    rcases hchan with hc0 | hc1
    · have hcfil : w.store.channels.filter (fun c =>
          opt_match (some ch.id) c.id) = [] :=
        filter_nil_of_countP_zero _ _ (by
          rw [List.countP_eq_length_filter]; exact hc0)
      refine ⟨⟨w.streams_by_id,
          ⟨w.store.streams,
           w.store.channels ++ [ch],
           w.store.channel_streams ++ [⟨ch.id, sid, everyone⟩]⟩⟩, ?_, ?_, ?_, ?_⟩
      · simp [_add_stream, hid, hlow, hnosub, get_stream_q, hsfil,
          get_channel_q, hcfil]
      · simp [get_channel_stream, List.filter_append, opt_match]
        exact hnosub2
      · exact hs1
      · simp [get_channel_q, List.filter_append, opt_match]
        intro a ha h1
        have hmem : a ∈ w.store.channels.filter (fun c =>
            opt_match (some ch.id) c.id) :=
          List.mem_filter.mpr ⟨ha, by simp [opt_match, h1]⟩
        rw [hcfil] at hmem
        cases hmem
    · obtain ⟨c0, hcfil, hpc0, _⟩ := filter_singleton_of_countP_one
        (fun c => opt_match (some ch.id) c.id) w.store.channels (by
          rw [List.countP_eq_length_filter]; exact hc1)
      refine ⟨⟨w.streams_by_id,
          ⟨w.store.streams,
           w.store.channels,
           w.store.channel_streams ++ [⟨ch.id, sid, everyone⟩]⟩⟩, ?_, ?_, ?_, ?_⟩
      · simp [_add_stream, hid, hlow, hnosub, get_stream_q, hsfil,
          get_channel_q, hcfil]
      · simp [get_channel_stream, List.filter_append, opt_match]
        exact hnosub2
      · exact hs1
      · show (w.store.channels.filter _).length = 1
        rw [hcfil]; rfl

/-- Removing an existing, unique subscription succeeds and leaves no row
for the (channel, stream) pair; the stream rows are either wholly deleted
(when it was the last subscription to the stream) or left uniquely present,
and likewise the channel row. -/
theorem remove_stream_clears (ids : String → Option Nat) (w : World)
    (ch : Channel) (nm : String) (sid : Nat)
    (hid : ids nm = some sid)
    (hsub1 : (get_channel_stream w.store (some ch.id) (some sid)).length = 1)
    (hsid1 : (get_stream_q w.store (some sid) none).length = 1)
    (hname1 : (get_stream_q w.store none (some nm)).length = 1)
    (hcid1 : (get_channel_q w.store (some ch.id)).length = 1)
    (hrow : (⟨sid, nm⟩ : StreamRow) ∈ w.store.streams)
    (hreg : (reg_lookup w.streams_by_id sid).isSome = true) :
    ∃ w1, _remove_stream ids w ch nm = some (w1, true) ∧
      get_channel_stream w1.store (some ch.id) (some sid) = [] ∧
      ((get_stream_q w1.store none (some nm) = [] ∧
          (get_stream_q w1.store (some sid) none).length = 0) ∨
        ((get_stream_q w1.store none (some nm)).length = 1 ∧
          (get_stream_q w1.store (some sid) none).length = 1)) ∧
      ((get_channel_q w1.store (some ch.id)).length = 0 ∨
        (get_channel_q w1.store (some ch.id)).length = 1) := by
  have hsubc : w.store.channel_streams.countP (fun cs =>
      opt_match (some ch.id) cs.channel_id
        && opt_match (some sid) cs.stream_id) = 1 := by
    rw [List.countP_eq_length_filter]; exact hsub1
  obtain ⟨cs0, hsubfil, hpcs0, hcs0mem⟩ :=
    filter_singleton_of_countP_one _ _ hsubc
  have hcomp := hpcs0
  simp only [opt_match, Bool.and_eq_true, decide_eq_true_eq] at hcomp
  obtain ⟨hpc, hps⟩ := hcomp
  have hgetsub : get_channel_stream w.store (some ch.id) (some sid) = [cs0] :=
    hsubfil
  have hcc : w.store.channels.countP
      (fun c => opt_match (some ch.id) c.id) = 1 := by
    rw [List.countP_eq_length_filter]; exact hcid1
  obtain ⟨ch0, hcfil, hpch0, hch0mem⟩ := filter_singleton_of_countP_one _ _ hcc
  have hgetch : get_channel_q w.store (some cs0.channel_id) = [ch0] := by
    show get_channel_q w.store (some cs0.channel_id) = [ch0]
    rw [← hpc]; exact hcfil
  have hsc : w.store.streams.countP (fun r =>
      opt_match (some sid) r.id && opt_match_str none r.name) = 1 := by
    rw [List.countP_eq_length_filter]; exact hsid1
  have hnc : w.store.streams.countP (fun r =>
      opt_match none r.id && opt_match_str (some nm) r.name) = 1 := by
    rw [List.countP_eq_length_filter]; exact hname1
  have hstfil := filter_eq_singleton_of_mem _ w.store.streams
    (⟨sid, nm⟩ : StreamRow) hsc hrow (by simp [opt_match, opt_match_str])
  have hgetst : get_stream_q w.store (some cs0.stream_id) none
      = [⟨sid, nm⟩] := by
    show get_stream_q w.store (some cs0.stream_id) none = [⟨sid, nm⟩]
    rw [← hps]; exact hstfil
  -- the erased subscription list holds no row for the pair anymore
  have hE0 : ((w.store.channel_streams.eraseP
      (fun r => decide (r = cs0))).countP (fun cs =>
        opt_match (some ch.id) cs.channel_id
          && opt_match (some sid) cs.stream_id)) = 0 := by
    have := countP_eraseP_sat (fun r => decide (r = cs0)) (fun cs =>
        opt_match (some ch.id) cs.channel_id
          && opt_match (some sid) cs.stream_id) w.store.channel_streams
      (fun x _ hdx => by rw [decide_eq_true_eq] at hdx; rw [hdx]; exact hpcs0)
      ⟨cs0, hcs0mem, by simp⟩
    omega
  have hclean : ∀ cs' : List ChannelStream,
      cs' = w.store.channel_streams.eraseP (fun r => decide (r = cs0)) →
      cs'.filter (fun cs => opt_match (some ch.id) cs.channel_id
        && opt_match (some sid) cs.stream_id) = [] := by
    intro cs' hcs'
    rw [hcs']
    exact filter_nil_of_countP_zero _ _ hE0
  -- the stream rows after a deletion of the unique (sid, nm) row
  have hsid0 : ((w.store.streams.eraseP (fun r =>
      decide (r = (⟨sid, nm⟩ : StreamRow)))).countP (fun r =>
        opt_match (some sid) r.id && opt_match_str none r.name)) = 0 := by
    have := countP_eraseP_sat
      (fun r => decide (r = (⟨sid, nm⟩ : StreamRow)))
      (fun r => opt_match (some sid) r.id && opt_match_str none r.name)
      w.store.streams
      (fun x _ hdx => by
        rw [decide_eq_true_eq] at hdx; rw [hdx]
        simp [opt_match, opt_match_str])
      ⟨⟨sid, nm⟩, hrow, by simp⟩
    omega
  have hname0 : ((w.store.streams.eraseP (fun r =>
      decide (r = (⟨sid, nm⟩ : StreamRow)))).countP (fun r =>
        opt_match none r.id && opt_match_str (some nm) r.name)) = 0 := by
    have := countP_eraseP_sat
      (fun r => decide (r = (⟨sid, nm⟩ : StreamRow)))
      (fun r => opt_match none r.id && opt_match_str (some nm) r.name)
      w.store.streams
      (fun x _ hdx => by
        rw [decide_eq_true_eq] at hdx; rw [hdx]
        simp [opt_match, opt_match_str])
      ⟨⟨sid, nm⟩, hrow, by simp⟩
    omega
  -- the channel rows after a deletion of the unique ch.id row
  have hcid0 : ((w.store.channels.eraseP (fun r =>
      decide (r = ch0))).countP (fun c => opt_match (some ch.id) c.id)) = 0 := by
    have := countP_eraseP_sat (fun r => decide (r = ch0))
      (fun c => opt_match (some ch.id) c.id) w.store.channels
      (fun x _ hdx => by rw [decide_eq_true_eq] at hdx; rw [hdx]; exact hpch0)
      ⟨ch0, hch0mem, by simp⟩
    omega
  simp only [_remove_stream, hid, hgetsub, hgetch, hgetst]
  by_cases hA : (get_channel_stream ⟨w.store.streams, w.store.channels,
      w.store.channel_streams.eraseP (fun r => decide (r = cs0))⟩
      (some ch.id) none).isEmpty
  · simp only [if_pos hA]
    by_cases hB : (get_channel_stream ⟨w.store.streams,
        w.store.channels.eraseP (fun r => decide (r = ch0)),
        w.store.channel_streams.eraseP (fun r => decide (r = cs0))⟩
        none (some sid)).isEmpty
    · simp only [if_pos hB]
      obtain ⟨s0, hs0⟩ := Option.isSome_iff_exists.mp hreg
      rw [hs0]
      refine ⟨_, rfl, hclean _ rfl, Or.inl ⟨?_, ?_⟩, Or.inl ?_⟩
      · exact filter_nil_of_countP_zero _ _ hname0
      · show ((w.store.streams.eraseP _).filter _).length = 0
        rw [filter_nil_of_countP_zero _ _ hsid0]; rfl
      · show ((w.store.channels.eraseP _).filter _).length = 0
        rw [filter_nil_of_countP_zero _ _ hcid0]; rfl
    · simp only [if_neg hB]
      refine ⟨_, rfl, hclean _ rfl, Or.inr ⟨hname1, hsid1⟩, Or.inl ?_⟩
      show ((w.store.channels.eraseP _).filter _).length = 0
      rw [filter_nil_of_countP_zero _ _ hcid0]; rfl
  · simp only [if_neg hA]
    by_cases hB : (get_channel_stream ⟨w.store.streams, w.store.channels,
        w.store.channel_streams.eraseP (fun r => decide (r = cs0))⟩
        none (some sid)).isEmpty
    · simp only [if_pos hB]
      obtain ⟨s0, hs0⟩ := Option.isSome_iff_exists.mp hreg
      rw [hs0]
      refine ⟨_, rfl, hclean _ rfl, Or.inl ⟨?_, ?_⟩, Or.inr hcid1⟩
      · exact filter_nil_of_countP_zero _ _ hname0
      · show ((w.store.streams.eraseP _).filter _).length = 0
        rw [filter_nil_of_countP_zero _ _ hsid0]; rfl
    · simp only [if_neg hB]
      exact ⟨_, rfl, hclean _ rfl, Or.inr ⟨hname1, hsid1⟩, Or.inr hcid1⟩

/-- C8: for a (channel, stream) pair holding its unique subscription in a
well-formed store (one subscription row for the pair, one stream row with
that id and name, one channel row, the stream registered),
`_remove_stream` followed by `_add_stream` with the same arguments succeeds
and leaves exactly one subscription row for the pair, exactly one stream
row and exactly one channel row — whether or not the removal deleted the
stream row (last subscription) or the channel row (last stream of the
channel). -/
theorem remove_add_round_trip (ids : String → Option Nat) (w : World)
    (ch : Channel) (nm : String) (everyone : Bool) (sid : Nat)
    (hid : ids nm = some sid)
    (hlow : py_lower nm = nm)
    (hsub1 : (get_channel_stream w.store (some ch.id) (some sid)).length = 1)
    (hsid1 : (get_stream_q w.store (some sid) none).length = 1)
    (hname1 : (get_stream_q w.store none (some nm)).length = 1)
    (hcid1 : (get_channel_q w.store (some ch.id)).length = 1)
    (hrow : (⟨sid, nm⟩ : StreamRow) ∈ w.store.streams)
    (hreg : (reg_lookup w.streams_by_id sid).isSome = true) :
    ∃ w1 w2, _remove_stream ids w ch nm = some (w1, true) ∧
      _add_stream ids w1 ch nm everyone = some (w2, true) ∧
      (get_channel_stream w2.store (some ch.id) (some sid)).length = 1 ∧
      (get_stream_q w2.store (some sid) none).length = 1 ∧
      (get_channel_q w2.store (some ch.id)).length = 1 := by
  obtain ⟨w1, hrem, hclean, hstream, hchan⟩ := remove_stream_clears ids w ch
    nm sid hid hsub1 hsid1 hname1 hcid1 hrow hreg
  obtain ⟨w2, hadd, h1, h2, h3⟩ := add_stream_restores ids w1 ch nm everyone
    sid hid hlow hclean hstream hchan
  exact ⟨w1, w2, hrem, hadd, h1, h2, h3⟩

/-- C8 witness: the round trip at a concrete store holding one channel,
one stream and the single subscription relating them. -/
theorem remove_add_round_trip_witness :
    ∃ w1 w2, _remove_stream (fun s => if s = "x" then some 1 else none)
        ⟨[(1, new_stream 1 "x")],
         ⟨[⟨1, "x"⟩], [⟨10, "c", 1, "g"⟩], [⟨10, 1, true⟩]⟩⟩
        ⟨10, "c", 1, "g"⟩ "x" = some (w1, true) ∧
      _add_stream (fun s => if s = "x" then some 1 else none)
        w1 ⟨10, "c", 1, "g"⟩ "x" false = some (w2, true) ∧
      (get_channel_stream w2.store (some 10) (some 1)).length = 1 ∧
      (get_stream_q w2.store (some 1) none).length = 1 ∧
      (get_channel_q w2.store (some 10)).length = 1 :=
  remove_add_round_trip (fun s => if s = "x" then some 1 else none)
    ⟨[(1, new_stream 1 "x")],
     ⟨[⟨1, "x"⟩], [⟨10, "c", 1, "g"⟩], [⟨10, 1, true⟩]⟩⟩
    ⟨10, "c", 1, "g"⟩ "x" false 1
    (by decide) (by decide) (by decide) (by decide) (by decide) (by decide)
    (by decide) (by decide)

/-- C9 witness: three outstanding handles, all edits succeeding: two are
edited, one handle remains outstanding. -/
theorem offline_transition_edits_half_witness :
    (on_stream_offline (fun _ => EditResult.ok) [⟨1⟩, ⟨2⟩, ⟨3⟩]).2.1.length
        = (([⟨1⟩, ⟨2⟩, ⟨3⟩] : List Notification).length + 1) / 2 ∧
    (on_stream_offline (fun _ => EditResult.ok) [⟨1⟩, ⟨2⟩, ⟨3⟩]).1.length
        = ([⟨1⟩, ⟨2⟩, ⟨3⟩] : List Notification).length / 2 ∧
    (on_stream_offline (fun _ => EditResult.ok) [⟨1⟩, ⟨2⟩, ⟨3⟩]).1 ≠ [] :=
  offline_transition_edits_half [⟨1⟩, ⟨2⟩, ⟨3⟩] (by decide)

end DiscordBot
